import Mathlib

/-!
Verification development for the YAML line-length normalization scripts of
this repository (src/scripts/fix-yaml-*.py).  Lines and file contents are
modelled as lists of characters; each script's per-line rewriting loop is
embedded as a Lean function translated line by line from the Python source.
-/

abbrev Line : Type := List Char

/-- Whitespace in the sense of Python str.strip / str.split / regex \s. -/
def pyWs (c : Char) : Bool :=
  c == ' ' || c == '\t' || c == '\n' || c == '\r' || c == '\x0b' || c == '\x0c'

/-- Python str.lstrip(). -/
def lstripL (l : Line) : Line := l.dropWhile pyWs

/-- Python str.rstrip(). -/
def rstripL (l : Line) : Line := (l.reverse.dropWhile pyWs).reverse

/-- Python str.strip(). -/
def stripL (l : Line) : Line := lstripL (rstripL l)

/-- Python len(line) - len(line.lstrip()), the computed indentation width. -/
def indentL (l : Line) : Nat := l.length - (lstripL l).length

/-- A run of n spaces. -/
def spacesL (n : Nat) : Line := List.replicate n ' '

/-- Python str.startswith on the character-list model. -/
def startsWithL : Line → Line → Bool
  | _, [] => true
  | [], _ :: _ => false
  | a :: as, b :: bs => a == b && startsWithL as bs

/-- Python substring membership (sub in line). -/
def containsSub (sub : Line) : Line → Bool
  | [] => sub.isEmpty
  | c :: t => startsWithL (c :: t) sub || containsSub sub t

/-- Python str.find for a substring, as an Option (None for -1). -/
def findSub (sub : Line) : Line → Option Nat
  | [] => if sub.isEmpty then some 0 else none
  | c :: t =>
    if startsWithL (c :: t) sub then some 0
    else (findSub sub t).map (· + 1)

/-- Python str.endswith on the character-list model. -/
def endsWithL (l suf : Line) : Bool := startsWithL l.reverse suf.reverse

def splitNlAux : Line → Line → List Line
  | [], acc => [acc.reverse]
  | c :: t, acc =>
    if c == '\n' then acc.reverse :: splitNlAux t [] else splitNlAux t (c :: acc)

/-- Python content.split(chr(10)). -/
def splitNl (l : Line) : List Line := splitNlAux l []

/-- Python (chr(10)).join(lines). -/
def joinNl : List Line → Line
  | [] => []
  | [l] => l
  | l :: ls => l ++ '\n' :: joinNl ls

def splitWordsAux : Line → Line → List Line
  | [], acc => if acc.isEmpty then [] else [acc.reverse]
  | c :: t, acc =>
    if pyWs c then
      if acc.isEmpty then splitWordsAux t [] else acc.reverse :: splitWordsAux t []
    else splitWordsAux t (c :: acc)

/-- Python str.split() with no argument: maximal runs of non-whitespace. -/
def splitWords (l : Line) : List Line := splitWordsAux l []

/-- Python str.rstrip(chr(10)): strip only trailing newline characters. -/
def rstripNlL (l : Line) : Line := (l.reverse.dropWhile (fun c => c == '\n')).reverse

def nlL : Line := ('\n' :: [])
def hashL : Line := ('#' :: [])
def colonSpL : Line := (':' :: ' ' :: [])
def dashSpL : Line := ('-' :: ' ' :: [])
def tplOpenL : Line := ("$\x7b\x7b").data
def tplCloseL : Line := ("\x7d\x7d").data
def dashes3L : Line := ("---").data

/--
Shared ending normalization of fix_yaml_content in fix-yaml-lint.py
(lines 131-136) and fix-yaml-lint-v2.py (lines 145-151): append a final
newline when missing, collapse a trailing double newline to a single one.
-/
def fixEnding (r : Line) : Line :=
  if endsWithL r nlL = false then r ++ nlL
  else if endsWithL r (nlL ++ nlL) then rstripNlL r ++ nlL
  else r

/--
Regex match for the list-marker pattern (leading whitespace, a dash-space
marker, a non-empty remainder) used at fix-yaml-aggressive.py line 54,
fix-yaml-lint.py line 101 and fix-yaml-lint-v2.py line 125; returns
(marker, remainder).
-/
def dashMatch (line : Line) : Option (Line × Line) :=
  let sp := line.takeWhile pyWs
  match line.drop sp.length with
  | '-' :: ' ' :: c :: t => some (sp ++ dashSpL, c :: t)
  | _ => none

def isUpperUnd (c : Char) : Bool := ('A' ≤ c && c ≤ 'Z') || c == '_'

def isUpperDigUnd (c : Char) : Bool := isUpperUnd c || ('0' ≤ c && c ≤ '9')

/--
The greedy word-accumulation loop shared by the splitters
(fix-yaml-aggressive.py lines 74-79, fix-yaml-lint.py lines 87-92 and
114-119): returns the lines pushed so far and the final current line.
-/
def breakWordsAux (cont : Line) : Line → List Line → List Line × Line
  | cur, [] => ([], cur)
  | cur, w :: ws =>
    if (cur ++ ' ' :: w).length ≤ 80 then breakWordsAux cont (cur ++ ' ' :: w) ws
    else
      let rest := breakWordsAux cont (cont ++ w) ws
      (cur :: rest.1, rest.2)

namespace FixYamlAggressive

/--
Regex match of fix-yaml-aggressive.py line 87: one or more leading
whitespace characters, an upper-case/underscore variable name, a colon,
one or more whitespace characters, then the value; returns
(leading whitespace, name with colon, value).  The regex-backtracking case
where everything after the colon is whitespace is unreachable here because
every caller passes an rstripped line, so it is folded into the none case.
-/
def envMatch (line : Line) : Option (Line × Line × Line) :=
  let sp := line.takeWhile pyWs
  if sp.isEmpty then none
  else
    match line.drop sp.length with
    | c :: t =>
      if isUpperUnd c then
        let nm := t.takeWhile isUpperDigUnd
        match t.drop nm.length with
        | ':' :: u =>
          let ws2 := u.takeWhile pyWs
          if ws2.isEmpty then none
          else
            let v := u.drop ws2.length
            if v.isEmpty then none else some (sp, (c :: nm) ++ (':' :: []), v)
        | _ => none
      else none
    | [] => none

/--
The last position p in range(70, min(80, len(line))) with line[p] a space
(fix-yaml-aggressive.py lines 125-128); the loop keeps overwriting
break_pos, so the last such position wins.
-/
def lastSpace70to79 (line : Line) : Option Nat :=
  (List.range' 70 (min 80 line.length - 70)).foldl
    (fun acc p => if line.get? p == some ' ' then some p else acc) none

/--
The per-line body of aggressively_fix_line_lengths in
fix-yaml-aggressive.py (lines 15-140): returns the emitted output lines
and the increment to issues_fixed.
-/
def aggLine (line0 : Line) : List Line × Nat :=
  let line := rstripL line0
  if line.length ≤ 80 then ([line], 0)
  else if startsWithL (stripL line) hashL
          || (containsSub tplOpenL line && containsSub tplCloseL line) then ([line], 0)
  else
    let ind := indentL line
    let indStr := spacesL ind
    let attempt : Option (List Line) :=
      if containsSub colonSpL line = true ∧ startsWithL (lstripL line) dashSpL = false then
        match findSub colonSpL line with
        | some cp =>
          if cp < 60 then
            let key := line.take cp
            let value := line.drop (cp + 2)
            if 30 < value.length then
              some [key ++ (": >").data, indStr ++ (' ' :: ' ' :: value)]
            else none
          else none
        | none => none
      else if startsWithL (lstripL line) dashSpL then
        match dashMatch line with
        | some (marker, content) =>
          if containsSub colonSpL content then
            match findSub colonSpL content with
            | some cp =>
              let keyPart := content.take (cp + 1)
              let valPart := content.drop (cp + 2)
              if 30 < valPart.length then
                some [marker ++ keyPart, spacesL marker.length ++ (' ' :: ' ' :: valPart)]
              else none
            | none => none
          else
            match splitWords content with
            | [] => none
            | w :: ws =>
              let r := breakWordsAux (spacesL marker.length) (marker ++ w) ws
              some (r.1 ++ [r.2])
        | none => none
      else if (envMatch line).isSome then
        match envMatch line with
        | some (sp, nameColon, value) =>
          some [sp ++ nameColon ++ (' ' :: '>' :: []), sp ++ (' ' :: ' ' :: value)]
        | none => none
      else if containsSub (("http").data) line || containsSub (("arn:aws:").data) line then
        if containsSub colonSpL line then
          match findSub colonSpL line with
          | some cp =>
            let key := line.take cp
            let value := line.drop (cp + 2)
            if containsSub (("://").data) value || containsSub (("arn:aws:").data) value then
              some [key ++ (": >").data, indStr ++ (' ' :: ' ' :: value)]
            else none
          | none => none
        else none
      else if containsSub (("run:").data) line then
        match findSub (("run:").data) line with
        | some pos =>
          let pre := line.take pos
          let runContent := stripL (line.drop (pos + 4))
          if 40 < runContent.length then
            some [pre ++ (("run: >").data), indStr ++ (' ' :: ' ' :: runContent)]
          else none
        | none => none
      else none
    match attempt with
    | some out => (out, 1)
    | none =>
      if containsSub (' ' :: []) line ∧ 80 < line.length then
        match lastSpace70to79 line with
        | some bp => ([line.take bp, indStr ++ (' ' :: ' ' :: line.drop (bp + 1))], 1)
        | none => ([line], 0)
      else ([line], 0)

/--
aggressively_fix_line_lengths of fix-yaml-aggressive.py (lines 9-146):
split on newlines, rewrite each line, join, ensure a final newline.
-/
def aggressively_fix_line_lengths (content : Line) : Line × Nat :=
  let step := (splitNl content).foldl
    (fun (acc : List Line × Nat) l =>
      let r := aggLine l
      (acc.1 ++ r.1, acc.2 + r.2)) ([], 0)
  let result := joinNl step.1
  (if endsWithL result nlL then result else result ++ nlL, step.2)

end FixYamlAggressive

def splitCommaAux : Line → Line → List Line
  | [], acc => [acc.reverse]
  | c :: t, acc =>
    if c == ',' then acc.reverse :: splitCommaAux t [] else splitCommaAux t (c :: acc)

/-- Python str.split on a comma. -/
def splitComma (l : Line) : List Line := splitCommaAux l []

/-- Python (", ").join. -/
def joinCommaSp : List Line → Line
  | [] => []
  | [l] => l
  | l :: ls => l ++ ',' :: ' ' :: joinCommaSp ls

namespace FixYamlLint

/--
Standalone trigger-key test of fix-yaml-lint.py line 27: the whole line is
optional whitespace, the two letters o n, a colon, then optional
whitespace.
-/
def onStandalone (line : Line) : Bool :=
  startsWithL (lstripL line) (("on:").data) && ((lstripL line).drop 3).all pyWs

/--
Inline trigger quoting of fix-yaml-lint.py lines 31-39: a line of shape
whitespace, o n colon, whitespace, value gets its value wrapped in double
quotes when the value is one of four known trigger names and is not
already quoted or a flow sequence.
-/
def onInlineFix (line : Line) : Line :=
  let t := lstripL line
  if startsWithL t (("on:").data) then
    let u := t.drop 3
    let ws := u.takeWhile pyWs
    if ws.isEmpty then line
    else
      let v := u.drop ws.length
      if v.isEmpty then line
      else if startsWithL v ('"' :: []) || startsWithL v (Char.ofNat 39 :: [])
              || startsWithL v ('[' :: []) then line
      else if v = ("push").data ∨ v = ("pull_request").data ∨ v = ("schedule").data
              ∨ v = ("workflow_dispatch").data then
        line.takeWhile pyWs ++ (("on: \"").data) ++ v ++ ('"' :: [])
      else line
  else line

/--
Comment-gap fix of fix-yaml-lint.py lines 42-58: when a non-comment line
holds a comment marker preceded by exactly one space, a second space is
inserted before the marker.
-/
def commentSpaceFix (line : Line) : Line :=
  if containsSub hashL line && !(startsWithL (stripL line) hashL) then
    match findSub hashL line with
    | some pos =>
      let before := line.take pos
      let comment := line.drop pos
      if endsWithL before (' ' :: []) then
        if (before.reverse.takeWhile (fun c => c == ' ')).length == 1 then
          before ++ ' ' :: comment
        else line
      else line
    | none => line
  else line

/--
Replacement body of the bracket-spacing regex at fix-yaml-lint.py
line 127: the bracket content is comma-split, each piece stripped, and the
pieces re-joined with comma-space.
-/
def bracketFmt (g : Line) : Line := joinCommaSp ((splitComma g).map stripL)

/--
re.sub of fix-yaml-lint.py line 127, scanning left to right: each
bracketed group with at least one non-bracket character is reformatted
via bracketFmt, and scanning resumes after the replaced group.  The fuel
argument (instantiated with the line length) keeps the recursion
structural.
-/
def bracketSubFuel : Nat → Line → Line
  | 0, l => l
  | _ + 1, [] => []
  | f + 1, c :: rest =>
    if c == '[' then
      match findSub (']' :: []) rest with
      | some j =>
        if 1 ≤ j then ('[' :: bracketFmt (rest.take j)) ++ ']' :: bracketSubFuel f (rest.drop (j + 1))
        else c :: bracketSubFuel f rest
      | none => c :: bracketSubFuel f rest
    else c :: bracketSubFuel f rest

def bracketSub (l : Line) : Line := bracketSubFuel l.length l

/--
Regex match for the list-item key-value shape at fix-yaml-lint.py
line 106: one or more non-colon characters, a colon-space, then a
non-empty value; returns (key part with colon-space, value part).
-/
def listKvMatch (content : Line) : Option (Line × Line) :=
  match findSub (':' :: []) content with
  | some i =>
    if 1 ≤ i ∧ content.get? (i + 1) == some ' ' ∧ content.drop (i + 2) ≠ [] then
      some (content.take (i + 2), content.drop (i + 2))
    else none
  | none => none

/--
Key-value word-break branch of fix_yaml_content in fix-yaml-lint.py
(lines 74-96); some means the branch fired (Python continue).
-/
def kvAttempt (line : Line) : Option (List Line) :=
  if containsSub colonSpL line && !(startsWithL (lstripL line) dashSpL) then
    match findSub colonSpL line with
    | some cp =>
      if 0 < cp ∧ cp < 60 then
        let key := line.take (cp + 1)
        let value := line.drop (cp + 2)
        if 40 < value.length ∧ containsSub (' ' :: []) value then
          match splitWords value with
          | [] => none
          | w :: ws =>
            let r := breakWordsAux (spacesL (indentL line + 2)) (key ++ ' ' :: w) ws
            some (r.1 ++ (if (stripL r.2).isEmpty then [] else [r.2]))
        else none
      else none
    | none => none
  else none

/--
List-item word-break branch of fix_yaml_content in fix-yaml-lint.py
(lines 99-123); some means the branch fired (Python continue).
-/
def listAttempt (line : Line) : Option (List Line) :=
  if startsWithL (lstripL line) dashSpL ∧ 80 < line.length then
    match dashMatch line with
    | some (marker, content) =>
      if containsSub colonSpL content then
        match listKvMatch content with
        | some (keyPart, valPart) =>
          if 40 < valPart.length then
            if containsSub (' ' :: []) valPart then
              match splitWords valPart with
              | [] => none
              | w :: ws =>
                let r := breakWordsAux (spacesL marker.length ++ (' ' :: [])) (marker ++ keyPart ++ w) ws
                some (r.1 ++ (if (stripL r.2).isEmpty then [] else [r.2]))
            else none
          else none
        | none => none
      else none
    | none => none
  else none

/--
The per-line body of fix_yaml_content in fix-yaml-lint.py (lines 23-129),
applied to every line after the first: rstrip, trigger handling, comment
gap fix, long-line handling with protected-line skips, bracket-spacing
fix.
-/
def lintBody (line0 : Line) : List Line :=
  let line1 := rstripL line0
  if onStandalone line1 then [line1]
  else
    let line2 := commentSpaceFix (onInlineFix line1)
    let main : Option (List Line) :=
      if 80 < line2.length ∧ startsWithL (stripL line2) hashL = false then
        if containsSub tplOpenL line2 && containsSub tplCloseL line2 then some [line2]
        else if containsSub ('|' :: []) line2 &&
                (containsSub (("bash").data) line2 || containsSub (("shell").data) line2) then
          some [line2]
        else
          match kvAttempt line2 with
          | some out => some out
          | none => listAttempt line2
      else none
    match main with
    | some out => out
    | none =>
      [if containsSub ('[' :: []) line2 && containsSub (']' :: []) line2 &&
          !(startsWithL (stripL line2) hashL) then bracketSub line2 else line2]

/--
First-line handling of fix_yaml_content in fix-yaml-lint.py (lines
17-21): a non-blank first line that does not already start, after
trimming, with the document marker gets the marker prepended and is
itself passed through unchanged; otherwise it is processed like any other
line.
-/
def lintFirst (l0 : Line) : List Line :=
  if stripL l0 ≠ [] ∧ startsWithL (stripL l0) dashes3L = false then [dashes3L, l0]
  else lintBody l0

def lintLinesOut : List Line → List Line
  | [] => []
  | l0 :: rest => lintFirst l0 ++ (rest.map lintBody).flatten

/-- fix_yaml_content of fix-yaml-lint.py (lines 9-138). -/
def fix_yaml_content (content : Line) : Line :=
  fixEnding (joinNl (lintLinesOut (splitNl content)))

end FixYamlLint

namespace FixYamlV2

/--
Standalone trigger-key test of fix-yaml-lint-v2.py line 29: the whole
line is optional whitespace, one of five trigger keywords, a colon, then
optional whitespace.
-/
def truthyStandalone (line : Line) : Bool :=
  [("on").data, ("push").data, ("pull_request").data, ("schedule").data,
   ("workflow_dispatch").data].any
    (fun k => startsWithL (lstripL line) (k ++ ':' :: [])
              && ((lstripL line).drop (k.length + 1)).all pyWs)

/--
Comment-gap fix of fix-yaml-lint-v2.py lines 37-54, with its issue
counter increment.
-/
def v2CommentFix (line : Line) : Line × Nat :=
  if containsSub hashL line && !(startsWithL (stripL line) hashL) then
    match findSub hashL line with
    | some pos =>
      let before := line.take pos
      let comment := line.drop pos
      if endsWithL before (' ' :: []) && !(endsWithL before (' ' :: ' ' :: [])) then
        if (before.reverse.takeWhile (fun c => c == ' ')).length == 1 then
          (before ++ ' ' :: comment, 1)
        else (line, 0)
      else (line, 0)
    | none => (line, 0)
  else (line, 0)

/--
The word scan of strategy 2 (fix-yaml-lint-v2.py lines 96-102): extend
the current line while the next word fits in the budget; return the
current line and the first word that did not fit, or none when every word
fit.
-/
def v2Scan : Line → List Line → Option (Line × Line)
  | _, [] => none
  | cur, w :: ws =>
    if (cur ++ ' ' :: w).length ≤ 80 then v2Scan (cur ++ ' ' :: w) ws
    else some (cur, w)

/-- Python list.index: position of the first occurrence of w. -/
def firstIdx : List Line → Line → Nat
  | [], _ => 0
  | x :: xs, w => if x == w then 0 else firstIdx xs w + 1

/--
Continuation-line builder of strategy 2 (fix-yaml-lint-v2.py lines
107-116), including its trailing-space bookkeeping and strip guards.
-/
def v2Cont (contIndent : Line) : Line → List Line → List Line
  | cur, [] => if (stripL cur).isEmpty then [] else [rstripL cur]
  | cur, w :: ws =>
    if (cur ++ w ++ ' ' :: []).length ≤ 80 then v2Cont contIndent (cur ++ w ++ ' ' :: []) ws
    else
      (if (stripL cur).isEmpty then [] else [rstripL cur])
        ++ v2Cont contIndent (contIndent ++ w ++ ' ' :: []) ws

/--
Key-value branch of fix_yaml_content in fix-yaml-lint-v2.py (lines
71-121): strategy 1 folds the value with a block-scalar header built from
the stripped key (which still holds its colon), strategy 2 breaks at word
boundaries using Python list.index to recover the remaining words; some
means the branch fired (Python continue).
-/
def v2kv (line : Line) : Option (List Line × Nat) :=
  if containsSub colonSpL line && !(startsWithL (lstripL line) dashSpL) then
    match findSub colonSpL line with
    | some cp =>
      if 0 < cp ∧ cp < 60 then
        let key := line.take (cp + 1)
        let value := line.drop (cp + 2)
        let ind := indentL line
        if 50 < value.length ∧
           (containsSub tplOpenL value || containsSub tplCloseL value ||
            containsSub ('|' :: []) value || containsSub ('&' :: []) value) = false ∧
           containsSub (' ' :: []) value ∧ startsWithL value ('"' :: []) = false then
          some ([spacesL ind ++ stripL key ++ (": >").data,
                 spacesL (ind + 2) ++ stripL value], 1)
        else if containsSub (' ' :: []) value ∧ 40 < value.length then
          match splitWords value with
          | [] => none
          | w :: ws =>
            match v2Scan (key ++ ' ' :: w) ws with
            | none => none
            | some (cur, breakWord) =>
              let remaining := (w :: ws).drop (firstIdx (w :: ws) breakWord)
              some (cur :: v2Cont (spacesL (ind + 2)) (spacesL (ind + 2)) remaining, 1)
        else none
      else none
    | none => none
  else none

/--
List-item branch of fix_yaml_content in fix-yaml-lint-v2.py (lines
124-141); some means the branch fired (Python continue).
-/
def v2list (line : Line) : Option (List Line × Nat) :=
  if startsWithL (lstripL line) dashSpL ∧ 80 < line.length then
    match dashMatch line with
    | some (marker, content) =>
      if containsSub colonSpL content ∧ containsSub (' ' :: []) content then
        match findSub colonSpL content with
        | some kvpos =>
          if 0 < kvpos then
            let keyPart := content.take (kvpos + 1)
            let valPart := content.drop (kvpos + 2)
            if 30 < valPart.length ∧ containsSub (' ' :: []) valPart then
              some ([marker ++ keyPart, spacesL marker.length ++ ' ' :: valPart], 1)
            else none
          else none
        | none => none
      else none
    | none => none
  else none

/--
The per-line body of fix_yaml_content in fix-yaml-lint-v2.py (lines
23-143), applied to every line: rstrip, trigger skip, comment gap fix,
long-line handling with protected-line skips.
-/
def v2Body (line0 : Line) : List Line × Nat :=
  let line := rstripL line0
  if truthyStandalone line then ([line], 0)
  else
    let lc := v2CommentFix line
    let line1 := lc.1
    if 80 < line1.length ∧ startsWithL (stripL line1) hashL = false then
      if containsSub tplOpenL line1 && containsSub tplCloseL line1 then ([line1], lc.2)
      else if [('|' :: []), ("&&").data, ("||").data, ("bash -c").data, ("shell:").data].any
                (fun s => containsSub s line1) then ([line1], lc.2)
      else
        match v2kv line1 with
        | some r => (r.1, lc.2 + r.2)
        | none =>
          match v2list line1 with
          | some r => (r.1, lc.2 + r.2)
          | none => ([line1], lc.2)
    else ([line1], lc.2)

/--
First-line handling of fix-yaml-lint-v2.py lines 19-21: unlike
fix-yaml-lint.py, the marker is emitted and the first line is still
processed by the regular body.
-/
def v2First (l0 : Line) : List Line × Nat :=
  let b := v2Body l0
  if stripL l0 ≠ [] ∧ startsWithL (stripL l0) dashes3L = false then
    (dashes3L :: b.1, 1 + b.2)
  else b

def v2LinesOut : List Line → List Line × Nat
  | [] => ([], 0)
  | l0 :: rest =>
    rest.foldl (fun acc l => let r := v2Body l; (acc.1 ++ r.1, acc.2 + r.2)) (v2First l0)

/-- fix_yaml_content of fix-yaml-lint-v2.py (lines 9-154). -/
def fix_yaml_content (content : Line) : Line × Nat :=
  let s := v2LinesOut (splitNl content)
  let r := joinNl s.1
  if endsWithL r nlL = false then (r ++ nlL, s.2 + 1)
  else if endsWithL r (nlL ++ nlL) then (rstripNlL r ++ nlL, s.2 + 1)
  else (r, s.2)

end FixYamlV2

namespace FixYamlComprehensive

/--
re.sub of fix-yaml-comprehensive.py line 41: every bracket pair holding
only whitespace (at least one character) collapses to an empty pair;
scanning resumes after each replacement.  Fuel keeps the recursion
structural.
-/
def brktEmptyFuel : Nat → Line → Line
  | 0, l => l
  | _ + 1, [] => []
  | f + 1, c :: rest =>
    if c == '[' then
      let p := rest.takeWhile pyWs
      if p.isEmpty = false ∧ rest.get? p.length == some ']' then
        '[' :: ']' :: brktEmptyFuel f (rest.drop (p.length + 1))
      else c :: brktEmptyFuel f rest
    else c :: brktEmptyFuel f rest

def brktEmptySub (l : Line) : Line := brktEmptyFuel l.length l

/--
The truthy-word alternatives of fix-yaml-comprehensive.py line 47
together with the replacement value the lambda of line 46 produces.
-/
def truthyAlts : List (Line × Line) :=
  [( ("on").data, ("true").data), (("off").data, ("false").data),
   (("yes").data, ("true").data), (("no").data, ("false").data),
   (("On").data, ("true").data), (("Off").data, ("false").data),
   (("Yes").data, ("true").data), (("No").data, ("false").data),
   (("ON").data, ("true").data), (("OFF").data, ("false").data),
   (("YES").data, ("true").data), (("NO").data, ("false").data)]

/--
Tail test for the truthy regex of fix-yaml-comprehensive.py line 47:
after a colon, one or more whitespace characters, one of the truthy
words, then optional whitespace to end of line; returns the replacement
value.
-/
def truthyTail (rest : Line) : Option Line :=
  let ws := rest.takeWhile pyWs
  if ws.isEmpty then none
  else
    let v := rest.drop ws.length
    (truthyAlts.find? (fun a => startsWithL v a.1 && (v.drop a.1.length).all pyWs)).map
      (fun a => a.2)

/--
re.sub of fix-yaml-comprehensive.py line 47: the leftmost colon whose
tail matches the truthy pattern is rewritten to colon-space plus the
mapped boolean word; the match runs to end of line.
-/
def truthySubFuel : Nat → Line → Line
  | 0, l => l
  | _ + 1, [] => []
  | f + 1, c :: rest =>
    if c == ':' then
      match truthyTail rest with
      | some mapped => ':' :: ' ' :: mapped
      | none => c :: truthySubFuel f rest
    else c :: truthySubFuel f rest

def truthySub (l : Line) : Line := truthySubFuel l.length l

/--
The per-line body of fix_yaml_file in fix-yaml-comprehensive.py (lines
31-68): marker skip on the first line, rstrip, empty-bracket fix, truthy
fix, and the folded-scalar rewrite for long single-colon lines.
-/
def compLine (i : Nat) (line0 : Line) : List Line :=
  if i == 0 ∧ stripL line0 = dashes3L then [line0]
  else
    let l3 := truthySub (brktEmptySub (rstripL line0))
    if 80 < l3.length ∧ containsSub (':' :: []) l3 ∧ startsWithL (stripL l3) hashL = false then
      if containsSub ((" - ").data) l3 || containsSub (("run: |").data) l3 then [l3]
      else if l3.count ':' == 1 ∧ containsSub ('|' :: []) l3 = false
              ∧ containsSub ('>' :: []) l3 = false then
        match findSub (':' :: []) l3 with
        | some cp =>
          let key := l3.take cp
          let value := stripL (l3.drop (cp + 1))
          if 60 < value.length then
            [key ++ (": >").data, spacesL (indentL key + 2) ++ value]
          else [l3]
        | none => [l3]
      else [l3]
    else [l3]

/--
The pure content transformation of fix_yaml_file in
fix-yaml-comprehensive.py (lines 17-77): the marker is prepended whenever
the whole stripped content does not start with it, each line is processed
by compLine, and a final newline is ensured (with no double-newline
collapse).
-/
def fix_yaml_file (content : Line) : Line :=
  let lines := splitNl content
  let head := if startsWithL (stripL content) dashes3L = false then [dashes3L] else []
  let r := joinNl (head ++ (lines.enum.map (fun p => compLine p.1 p.2)).flatten)
  if endsWithL r nlL then r else r ++ nlL

end FixYamlComprehensive

namespace FixYamlTargeted

def scanName : Line := ("scan-to-securityhub.yml").data

/-- The part of l before the first occurrence of sep (Python split, index 0). -/
def part0 (sep l : Line) : Line :=
  match findSub sep l with
  | some i => l.take i
  | none => l

/-- The part of l between the first and second occurrence of sep (Python split, index 1). -/
def part1 (sep l : Line) : Line :=
  match findSub sep l with
  | some i =>
    let rest := l.drop (i + sep.length)
    match findSub sep rest with
    | some j => rest.take j
    | none => rest
  | none => l

/--
Regex match at fix-yaml-targeted.py line 40: one or more leading
whitespace characters, an upper-case/underscore name, a colon, optional
whitespace, then the value; returns (leading whitespace, name, value).
When everything after the colon is whitespace, regex backtracking makes
the value the final whitespace character.
-/
def envMatch2 (line : Line) : Option (Line × Line × Line) :=
  let sp := line.takeWhile pyWs
  if sp.isEmpty then none
  else
    match line.drop sp.length with
    | c :: t =>
      if isUpperUnd c then
        let nm := t.takeWhile isUpperUnd
        match t.drop nm.length with
        | ':' :: u =>
          let v := u.dropWhile pyWs
          if v.isEmpty then
            match u.reverse with
            | w :: _ => some (sp, c :: nm, w :: [])
            | [] => none
          else some (sp, c :: nm, v)
        | _ => none
      else none
    | [] => none

/-- The nine-whitespace-then-non-whitespace test of fix-yaml-targeted.py line 101. -/
def nineWsMatch (line : Line) : Bool :=
  (line.take 9).length == 9 && (line.take 9).all pyWs &&
    (match line.drop 9 with | c :: _ => !(pyWs c) | [] => false)

/--
The long-line branch chain of fix_specific_issues in fix-yaml-targeted.py
(lines 24-96); some means a branch fired (Python continue).
-/
def targChain (line : Line) : Option (List Line) :=
  let roleKey := ("role-to-assume:").data
  if containsSub roleKey line && containsSub (("arn:aws:iam::").data) line then
    some [part0 roleKey line ++ roleKey,
          spacesL (indentL line + 2) ++ stripL (part1 roleKey line)]
  else if (envMatch2 line).isSome then
    match envMatch2 line with
    | some (sp, nm, value) =>
      if 50 < value.length then
        some [sp ++ nm ++ (": >").data, sp ++ ' ' :: ' ' :: value]
      else none
    | none => none
  else if containsSub (("with:").data) line then none
  else if startsWithL (stripL line) (("run:").data) then
    let rc := stripL (part1 (("run:").data) line)
    if 50 < rc.length ∧ (containsSub ('|' :: []) line || containsSub ('>' :: []) line) = false then
      some [spacesL (indentL line) ++ (("run: >").data),
            spacesL (indentL line + 2) ++ rc]
    else none
  else if containsSub (("uses:").data) line then
    let uc := stripL (part1 (("uses:").data) line)
    -- the source splits uc at its last at-sign and reassembles the same string
    if containsSub ('@' :: []) uc ∧ 50 < uc.length then
      some [spacesL (indentL line) ++ (("uses: >").data),
            spacesL (indentL line + 2) ++ uc]
    else none
  else if containsSub colonSpL line then
    match findSub colonSpL line with
    | some cp =>
      if cp < 60 then
        let key := line.take (cp + 1)
        let value := line.drop (cp + 2)
        if 40 < value.length ∧ containsSub (' ' :: []) value ∧
           (containsSub tplOpenL value || containsSub tplCloseL value ||
            containsSub ('|' :: []) value || containsSub (("&&").data) value) = false then
          some [spacesL (indentL line) ++ stripL key ++ (": >").data,
                spacesL (indentL line + 2) ++ value]
        else none
      else none
    | none => none
  else none

/--
The filename-keyed indentation adjustment and rstrip append of
fix_specific_issues in fix-yaml-targeted.py (lines 98-107).
-/
def targAfter (filename line : Line) : Line × Nat :=
  if filename == scanName ∧ nineWsMatch line then (rstripL (' ' :: line), 1)
  else (rstripL line, 0)

/-- One loop iteration of fix_specific_issues (fix-yaml-targeted.py lines 16-108). -/
def targLine (filename line : Line) : List Line × Nat :=
  if 80 < line.length then
    match targChain line with
    | some out => (out, 1)
    | none => let a := targAfter filename line; ([a.1], a.2)
  else
    let a := targAfter filename line; ([a.1], a.2)

/-- fix_specific_issues of fix-yaml-targeted.py (lines 9-116). -/
def fix_specific_issues (content filename : Line) : Line × Nat :=
  let s := (splitNl content).foldl
    (fun (acc : List Line × Nat) l =>
      let r := targLine filename l
      (acc.1 ++ r.1, acc.2 + r.2)) ([], 0)
  let r := joinNl s.1
  if endsWithL r nlL = false then (r ++ nlL, s.2 + 1) else (r, s.2)

/-- The hard-coded target list of main in fix-yaml-targeted.py (lines 127-139). -/
def problem_files : List Line :=
  [("sign-and-push.yml").data, ("terraform-apply.yml").data,
   ("dependency-updates.yml").data, ("scan-to-securityhub.yml").data,
   ("dependabot-guard.yml").data, ("sbom-sca.yml").data,
   ("ci-build-deploy.yml").data, ("dast-zap.yml").data,
   ("demo-sbom-pipeline.yml").data, ("canary-deploy.yml").data,
   ("AIsummary.yml").data]

/--
The files main of fix-yaml-targeted.py attempts to process: exactly the
hard-coded names that exist in the workflows directory (the existence
test is abstracted as a predicate).
-/
def mainAttempts (present : Line → Bool) : List Line := problem_files.filter present

end FixYamlTargeted

namespace BatchModel

/--
The batch loop of main in fix-yaml-lint-v2.py (lines 177-197) and its
clones in fix-yaml-aggressive.py and fix-yaml-comprehensive.py: per-file
processing sits inside a try/except, so both the success and the failure
branch fall through to the next file.  Returns the attempted files and
the total fix count.
-/
def v2Run (process : Nat → Except Unit Nat) : List Nat → List Nat × Nat
  | [] => ([], 0)
  | f :: r =>
    let rest := v2Run process r
    match process f with
    | Except.ok n => (f :: rest.1, n + rest.2)
    | Except.error _ => (f :: rest.1, rest.2)

/--
The batch loop of main in fix-yaml-lint.py (lines 255-258) and
fix-yaml-final.py (lines 111-121): no per-file handler, so an exception
raised while processing one file propagates and aborts the loop.
Returns the attempted files and the outcome.
-/
def lintRun (process : Nat → Except Unit Nat) : List Nat → List Nat × Except Unit Nat
  | [] => ([], Except.ok 0)
  | f :: r =>
    match process f with
    | Except.ok n =>
      let rest := lintRun process r
      (f :: rest.1, match rest.2 with
        | Except.ok m => Except.ok (n + m)
        | Except.error e => Except.error e)
    | Except.error e => ([f], Except.error e)

/-- A processing function that fails on file 0 and fixes one issue elsewhere. -/
def procCex (f : Nat) : Except Unit Nat :=
  if f == 0 then Except.error () else Except.ok 1

end BatchModel

/-! Concrete documents and lines used by the theorems below. -/

/-- 29 words of two letters each, 86 characters in all. -/
def c1value : Line := (List.replicate 28 (("aa ").data)).flatten ++ ("aa").data

/-- A 91-character mapping line whose folded continuation is 88 characters. -/
def c1line : Line := ("key: ").data ++ c1value

def c2out1 : Line := ("key: >").data

def c2out2 : Line := ' ' :: ' ' :: c1value

/-- A 96-character protected line (template expression) with a trailing space. -/
def c3cex : Line :=
  ("run: echo $\x7b\x7b secrets.VERY_LONG_TOKEN_NAME_THAT_PUSHES_THIS_LINE_WELL_OVER_THE_EIGHTY_BUDGET \x7d\x7d ").data

/-- The same protected line without the trailing space (95 characters). -/
def c3w : Line :=
  ("run: echo $\x7b\x7b secrets.VERY_LONG_TOKEN_NAME_THAT_PUSHES_THIS_LINE_WELL_OVER_THE_EIGHTY_BUDGET \x7d\x7d").data

/--
A 95-character protected line with no trailing whitespace whose inline
comment marker is preceded by exactly one space.
-/
def c3cex2 : Line :=
  ("run: echo $\x7b\x7b secrets.VERY_LONG_TOKEN_NAME_PUSHING_THIS_WELL_PAST_EIGHTY_CHARS \x7d\x7d # deploy note").data

/-- An 89-character comment line with trailing spaces. -/
def c4cex : Line :=
  ("# this is a very long comment line that definitely exceeds the eighty character budget   ").data

/-- A long comment line without trailing whitespace. -/
def c4w : Line :=
  ("# this is a very long comment line that definitely exceeds the eighty character budget").data

/-- A 57-character value holding a two-space run after its first word. -/
def c5value : Line := ("alpha  beta gamma delta epsilon zeta eta theta iota kappa").data

/-- An 86-character mapping line whose value holds a two-space run. -/
def c5line : Line := spacesL 16 ++ ("description: ").data ++ c5value

def c5out1 : Line := spacesL 16 ++ ("description:: >").data

def c5out2 : Line := spacesL 18 ++ c5value

/-- A document whose body is one line followed by two blank lines. -/
def c6doc : Line := ("a\n\n\n").data

/-- A document whose first line is blank and whose content lacks a marker. -/
def c7doc : Line := ("\nkey: value").data

/-- A 92-character line holding an opening template token but no closing one. -/
def c8line : Line :=
  ("run: echo $\x7b\x7b secrets.TOKEN and many more filler words here to exceed the eighty char budget").data

def c8out1 : Line :=
  ("run: echo $\x7b\x7b secrets.TOKEN and many more filler words here to exceed the eighty").data

def c8out2 : Line := ("  char budget").data

/-- A line of nine spaces and one letter, the shape the targeted fixer adjusts. -/
def c10content : Line := spacesL 9 ++ ("x").data

def c10other : Line := ("other.yml").data

/-! Helper lemmas. -/

theorem dropWhile_dropWhile {α : Type} (p : α → Bool) (l : List α) :
    List.dropWhile p (List.dropWhile p l) = List.dropWhile p l := by
  induction l with
  | nil => rfl
  | cons a t ih =>
    by_cases h : p a = true
    · simp [List.dropWhile, h, ih]
    · simp [List.dropWhile, h]

theorem rstripL_rstripL (l : Line) : rstripL (rstripL l) = rstripL l := by
  unfold rstripL
  rw [List.reverse_reverse, dropWhile_dropWhile]

theorem stripL_rstripL (l : Line) : stripL (rstripL l) = stripL l := by
  unfold stripL
  rw [rstripL_rstripL]

theorem lstripL_rstripL (l : Line) : lstripL (rstripL l) = stripL l := rfl

theorem startsWith_single {m : Line} {a : Char} (h : startsWithL m (a :: []) = true) :
    ∃ t, m = a :: t := by
  cases m with
  | nil => simp [startsWithL] at h
  | cons c t =>
    refine ⟨t, ?_⟩
    simp [startsWithL] at h
    rw [h]

theorem startsWith_dropWhile_self {p : Char → Bool} {c : Char} (hc : p c = true)
    (m : Line) : startsWithL (List.dropWhile p m) (c :: []) = false := by
  induction m with
  | nil => simp [startsWithL]
  | cons a t ih =>
    by_cases h : p a = true
    · simpa [List.dropWhile, h] using ih
    · simp [List.dropWhile, h, startsWithL]
      intro he
      rw [he] at h
      exact absurd hc h

theorem endsWith_append_nl (l : Line) : endsWithL (l ++ nlL) nlL = true := by
  simp [endsWithL, nlL, startsWithL]

theorem endsWith2_append_nl {l : Line} (h : endsWithL l nlL = false) :
    endsWithL (l ++ nlL) (nlL ++ nlL) = false := by
  simp [endsWithL, nlL, startsWithL] at h ⊢
  exact h

theorem endsWith_rstripNl (l : Line) : endsWithL (rstripNlL l) nlL = false := by
  unfold endsWithL rstripNlL nlL
  rw [List.reverse_reverse]
  exact startsWith_dropWhile_self (by decide) l.reverse

theorem onInlineFix_not_on {line : Line}
    (h : startsWithL (lstripL line) (("on:").data) = false) :
    FixYamlLint.onInlineFix line = line := by
  unfold FixYamlLint.onInlineFix
  simp [h]

theorem commentSpaceFix_hash {line : Line}
    (h : startsWithL (stripL line) hashL = true) :
    FixYamlLint.commentSpaceFix line = line := by
  unfold FixYamlLint.commentSpaceFix
  simp [h]

theorem v2CommentFix_noHash {line : Line}
    (h : containsSub hashL line = false) :
    FixYamlV2.v2CommentFix line = (line, 0) := by
  unfold FixYamlV2.v2CommentFix
  simp [h]

theorem commentSpaceFix_noHash {line : Line}
    (h : containsSub hashL line = false) :
    FixYamlLint.commentSpaceFix line = line := by
  unfold FixYamlLint.commentSpaceFix
  simp [h]

theorem ensureNl_ends (r : Line) :
    endsWithL (if endsWithL r nlL then r else r ++ nlL) nlL = true := by
  by_cases h : endsWithL r nlL = true
  · simp [h]
  · simp [h, endsWith_append_nl]

theorem v2_ending_eq (c : Line) :
    (FixYamlV2.fix_yaml_content c).1 =
      fixEnding (joinNl (FixYamlV2.v2LinesOut (splitNl c)).1) := by
  unfold FixYamlV2.fix_yaml_content fixEnding
  by_cases h1 : endsWithL (joinNl (FixYamlV2.v2LinesOut (splitNl c)).1) nlL = false
  · simp [h1]
  · simp [h1]
    by_cases h2 :
        endsWithL (joinNl (FixYamlV2.v2LinesOut (splitNl c)).1) (nlL ++ nlL) = true
    · simp [h2]
    · simp [h2]

theorem filter_all_contains (L : List Line) (p : Line → Bool) :
    (L.filter p).all (fun f => L.contains f) = true := by
  rw [List.all_eq_true]
  intro x hx
  exact List.elem_eq_true_of_mem (List.mem_of_mem_filter hx)

/-- The ending normalization always leaves exactly one final newline. -/
theorem fixEnding_spec (r : Line) :
    endsWithL (fixEnding r) nlL = true ∧ endsWithL (fixEnding r) (nlL ++ nlL) = false := by
  unfold fixEnding
  by_cases h1 : endsWithL r nlL = false
  · simp [h1]
    exact ⟨endsWith_append_nl r, endsWith2_append_nl h1⟩
  · simp [h1]
    by_cases h2 : endsWithL r (nlL ++ nlL) = true
    · simp [h2]
      refine ⟨endsWith_append_nl _, endsWith2_append_nl ?_⟩
      exact endsWith_rstripNl r
    · simp [h2]
      exact eq_true_of_ne_false h1

/-! Claim theorems. -/

/--
C1: the spec demands rewrite idempotence (a second pass reports zero
lines changed), but aggressively_fix_line_lengths emits an 88-character
folded continuation for c1line which the second pass splits again, so the
second pass reports one changed line, not zero.
-/
theorem C1_second_pass_changes :
    (FixYamlAggressive.aggressively_fix_line_lengths c1line).2 = 1 ∧
    (FixYamlAggressive.aggressively_fix_line_lengths
        ((FixYamlAggressive.aggressively_fix_line_lengths c1line).1)).2 = 1 :=
  ⟨rfl, rfl⟩

/--
C2: the spec demands that every output line of a split be within the
80-character budget unless it is a single over-long token, but the
aggressive folder emits a continuation of 88 characters that holds many
internal spaces.
-/
theorem C2_over_budget_output :
    FixYamlAggressive.aggLine c1line = ([c2out1, c2out2], 1) ∧
    80 < c2out2.length ∧ containsSub (' ' :: []) c2out2 = true :=
  ⟨rfl, by decide, rfl⟩

/--
C3 (amended): a protected over-budget line (template-expression tokens
present at the point the engines test them, not a comment, not a
standalone trigger key) is never split or folded: each engine's output is
the single line obtained from the input by that engine's unconditional
per-line normalizations — the trailing-whitespace strip, lint's
inline-trigger quoting, and the comment-gap respacing — so byte-for-byte
equality with the input holds exactly when those normalizations leave the
line unchanged.
-/
theorem C3_protected_strip (l : Line)
    (h1 : containsSub tplOpenL (FixYamlV2.v2CommentFix (rstripL l)).1 = true)
    (h2 : containsSub tplCloseL (FixYamlV2.v2CommentFix (rstripL l)).1 = true)
    (h3 : 80 < (FixYamlV2.v2CommentFix (rstripL l)).1.length)
    (h4 : startsWithL (stripL (FixYamlV2.v2CommentFix (rstripL l)).1) hashL = false)
    (h5 : FixYamlV2.truthyStandalone (rstripL l) = false)
    (h6 : containsSub tplOpenL
            (FixYamlLint.commentSpaceFix (FixYamlLint.onInlineFix (rstripL l))) = true)
    (h7 : containsSub tplCloseL
            (FixYamlLint.commentSpaceFix (FixYamlLint.onInlineFix (rstripL l))) = true)
    (h8 : 80 < (FixYamlLint.commentSpaceFix (FixYamlLint.onInlineFix (rstripL l))).length)
    (h9 : startsWithL
            (stripL (FixYamlLint.commentSpaceFix (FixYamlLint.onInlineFix (rstripL l))))
            hashL = false)
    (h10 : FixYamlLint.onStandalone (rstripL l) = false) :
    FixYamlV2.v2Body l =
      ([(FixYamlV2.v2CommentFix (rstripL l)).1], (FixYamlV2.v2CommentFix (rstripL l)).2) ∧
    FixYamlLint.lintBody l =
      [FixYamlLint.commentSpaceFix (FixYamlLint.onInlineFix (rstripL l))] := by
  constructor
  · unfold FixYamlV2.v2Body
    simp [h1, h2, h3, h4, h5]
  · unfold FixYamlLint.lintBody
    simp [h6, h7, h8, h9, h10]

/--
C3 witness: a concrete protected over-budget line that none of the
normalizations touch passes through both engines byte-for-byte.
-/
theorem C3_protected_strip_witness :
    (FixYamlV2.v2CommentFix (rstripL c3w)).1 = c3w ∧
    FixYamlLint.commentSpaceFix (FixYamlLint.onInlineFix (rstripL c3w)) = c3w ∧
    (FixYamlV2.v2Body c3w =
       ([(FixYamlV2.v2CommentFix (rstripL c3w)).1], (FixYamlV2.v2CommentFix (rstripL c3w)).2) ∧
     FixYamlLint.lintBody c3w =
       [FixYamlLint.commentSpaceFix (FixYamlLint.onInlineFix (rstripL c3w))]) :=
  ⟨rfl, rfl,
   C3_protected_strip c3w rfl rfl (by decide) rfl rfl rfl rfl (by decide) rfl rfl⟩

/--
C3 counterexample: two protected over-budget lines are not returned
byte-for-byte.  With a trailing space the engine strips it; with an
inline comment marker preceded by one space the comment-gap fix inserts a
space before the protected skip runs, so the output differs even from the
rstripped input.
-/
theorem C3_protected_not_bytewise :
    (containsSub tplOpenL c3cex = true ∧ containsSub tplCloseL c3cex = true ∧
     80 < (rstripL c3cex).length ∧
     (FixYamlV2.v2Body c3cex).1 ≠ [c3cex]) ∧
    (containsSub tplOpenL c3cex2 = true ∧ containsSub tplCloseL c3cex2 = true ∧
     rstripL c3cex2 = c3cex2 ∧ 80 < c3cex2.length ∧
     (FixYamlV2.v2Body c3cex2).1 ≠ [c3cex2] ∧
     (FixYamlLint.lintBody c3cex2) ≠ [c3cex2]) :=
  ⟨⟨rfl, rfl, by decide, by decide⟩,
   ⟨rfl, rfl, rfl, by decide, by decide, by decide⟩⟩

/--
C4 (amended): a line whose trimmed content starts with the comment marker
passes through both the aggressive fixer and the lint body as its input
with trailing whitespace stripped, with no fix counted; byte-for-byte
equality therefore holds exactly when the input has no trailing
whitespace.
-/
theorem C4_comment_strip (l : Line)
    (h : startsWithL (stripL l) hashL = true) :
    FixYamlAggressive.aggLine l = ([rstripL l], 0) ∧
    FixYamlLint.lintBody l = [rstripL l] := by
  obtain ⟨t, ht⟩ := startsWith_single h
  constructor
  · unfold FixYamlAggressive.aggLine
    by_cases hlen : (rstripL l).length ≤ 80
    · simp [hlen]
    · simp [hlen, stripL_rstripL, h]
  · have hon : startsWithL (lstripL (rstripL l)) (("on:").data) = false := by
      rw [lstripL_rstripL, ht]
      simp [startsWithL, show ('#' == 'o') = false from rfl]
    have hs : startsWithL (stripL (rstripL l)) hashL = true := by
      rw [stripL_rstripL]
      exact h
    simp [FixYamlLint.lintBody, FixYamlLint.onStandalone, hon,
          onInlineFix_not_on hon, commentSpaceFix_hash hs, hs]

/-- C4 witness: a concrete long comment without trailing whitespace. -/
theorem C4_comment_strip_witness :
    startsWithL (stripL c4w) hashL = true ∧
    FixYamlAggressive.aggLine c4w = ([rstripL c4w], 0) ∧
    FixYamlLint.lintBody c4w = [rstripL c4w] :=
  ⟨rfl, (C4_comment_strip c4w rfl).1, (C4_comment_strip c4w rfl).2⟩

/--
C4 counterexample: a long comment line with trailing spaces is not
returned byte-for-byte; the aggressive fixer strips the trailing spaces.
-/
theorem C4_comment_not_bytewise :
    startsWithL (stripL c4cex) hashL = true ∧
    (FixYamlAggressive.aggLine c4cex).1 ≠ [c4cex] :=
  ⟨rfl, by decide⟩

/--
C5: the spec demands the splitter refuse to fold a value holding a run of
two or more spaces, but the v2 engine folds c5line (whose value holds a
double space) into a block-scalar form, even emitting a malformed
double-colon header; re-joining the continuation with single spaces would
not reproduce the original value.
-/
theorem C5_folds_multispace :
    FixYamlV2.v2Body c5line = ([c5out1, c5out2], 1) ∧
    containsSub (' ' :: ' ' :: []) c5value = true :=
  ⟨rfl, rfl⟩

/--
C6 (amended): fix_yaml_content of fix-yaml-lint.py always ends its output
with a newline and never with two, while aggressively_fix_line_lengths
only guarantees a terminating newline and can keep trailing blank lines.
-/
theorem C6_single_newline :
    (∀ content : Line,
      endsWithL (FixYamlLint.fix_yaml_content content) nlL = true ∧
      endsWithL (FixYamlLint.fix_yaml_content content) (nlL ++ nlL) = false) ∧
    (∀ content : Line,
      endsWithL (FixYamlV2.fix_yaml_content content).1 nlL = true ∧
      endsWithL (FixYamlV2.fix_yaml_content content).1 (nlL ++ nlL) = false) ∧
    (∀ content : Line,
      endsWithL (FixYamlAggressive.aggressively_fix_line_lengths content).1 nlL = true) := by
  refine ⟨fun content => fixEnding_spec _, fun content => ?_, fun content => ensureNl_ends _⟩
  rw [v2_ending_eq]
  exact fixEnding_spec _

/--
C6 counterexample: on a document with two trailing blank lines the
aggressive fixer's output still ends with a double newline, violating the
no-trailing-blank-line invariant the claim states for every input.
-/
theorem C6_agg_trailing_blank :
    endsWithL (FixYamlAggressive.aggressively_fix_line_lengths c6doc).1 (nlL ++ nlL) = true :=
  rfl

/--
C7 (amended): in fix_yaml_content of fix-yaml-lint.py the document marker
is prepended exactly once, if and only if the first input line is
non-blank and does not, after trimming, already start with the marker;
otherwise the first line is processed like any other and no marker is
inserted.
-/
theorem C7_marker_iff (l0 : Line) (rest : List Line) :
    (stripL l0 ≠ [] ∧ startsWithL (stripL l0) dashes3L = false →
      FixYamlLint.lintLinesOut (l0 :: rest) =
        dashes3L :: l0 :: (rest.map FixYamlLint.lintBody).flatten) ∧
    (stripL l0 = [] ∨ startsWithL (stripL l0) dashes3L = true →
      FixYamlLint.lintLinesOut (l0 :: rest) =
        FixYamlLint.lintBody l0 ++ (rest.map FixYamlLint.lintBody).flatten) := by
  constructor
  · intro h
    simp [FixYamlLint.lintLinesOut, FixYamlLint.lintFirst, h.1, h.2]
  · intro h
    have hneg : ¬(stripL l0 ≠ [] ∧ startsWithL (stripL l0) dashes3L = false) := by
      rintro ⟨hA, hB⟩
      rcases h with h | h
      · exact hA h
      · rw [h] at hB
        simp at hB
    simp [FixYamlLint.lintLinesOut, FixYamlLint.lintFirst, hneg]

/-- C7 witness: a one-line document with a plain mapping entry gains the marker. -/
theorem C7_marker_iff_witness :
    stripL (("key: v").data) ≠ [] ∧
    FixYamlLint.lintLinesOut [("key: v").data] = [dashes3L, ("key: v").data] :=
  ⟨by decide, by
    have h := (C7_marker_iff (("key: v").data) []).1 ⟨by decide, rfl⟩
    simpa using h⟩

/--
C7 counterexample: fix_yaml_file of fix-yaml-comprehensive.py keys the
marker on the whole stripped content, so a document whose first line is
blank still gains the marker, contradicting the claim's blank-first-line
clause.
-/
theorem C7_blank_first_line_gains_marker :
    (splitNl c7doc).head? = some [] ∧
    FixYamlComprehensive.fix_yaml_file c7doc = ("---\n\nkey: value\n").data :=
  ⟨rfl, rfl⟩

/--
C8: the spec demands that an unterminated opening template token protect
the line to its end, but the lint engine only protects lines holding both
tokens: c8line carries an opening token and no closing one and is split
into two lines, the break landing inside the protected span.
-/
theorem C8_unterminated_split :
    FixYamlLint.lintBody c8line = [c8out1, c8out2] ∧
    containsSub tplOpenL c8line = true ∧
    containsSub tplCloseL c8line = false ∧
    containsSub tplOpenL c8out1 = true :=
  ⟨rfl, rfl, rfl, rfl⟩

/--
C9 (amended): the v2-style batch loop wraps per-file processing in a
handler, so every file is attempted whatever each file's outcome.
-/
theorem C9_batch_isolated (process : Nat → Except Unit Nat) (files : List Nat) :
    (BatchModel.v2Run process files).1 = files := by
  induction files with
  | nil => rfl
  | cons f r ih =>
    unfold BatchModel.v2Run
    cases process f <;> simp [ih]

/--
C9 counterexample: the unguarded loop of fix-yaml-lint.py and
fix-yaml-final.py stops at the first failing file, so with a process that
fails on file 0 the second file is never attempted.
-/
theorem C9_batch_aborts :
    BatchModel.lintRun BatchModel.procCex [0, 1] = ([0], Except.error ()) :=
  rfl

/--
C10: the targeted fixer is filename-sensitive: the same content produces
different outputs under the hard-coded name and another name, and the
batch only ever attempts files drawn from the hard-coded target list.
-/
theorem C10_filename_dependent :
    FixYamlTargeted.fix_specific_issues c10content FixYamlTargeted.scanName ≠
      FixYamlTargeted.fix_specific_issues c10content c10other ∧
    ∀ present : Line → Bool,
      (FixYamlTargeted.mainAttempts present).all
        (fun f => FixYamlTargeted.problem_files.contains f) = true := by
  constructor
  · decide
  · intro present
    exact filter_all_contains _ _
